import Mathlib

/-!
# Verification of the Gründungszuschuss assessment backend

A shallow embedding of the assessment backend (question bank, scoring
engine, session orchestration) and proofs of the specified properties.

Modelling conventions:
* Python floats are modelled as exact fractions: the type `Q` below is an
  executable, unnormalized fraction (integer numerator, positive integer
  denominator) whose value is read off by `Q.val : Q → ℚ`; `round(x, 1)`
  is modelled as decimal round-half-to-even at one decimal place.
* Python dicts are modelled as association lists in insertion order;
  assignment to an existing key replaces the value in place, assignment
  to a fresh key appends.
* A Python exception inside scoring is modelled as `none` / an error value.
* `str.lower` is modelled on the ASCII range (every scoring key is ASCII).
* Presentational fields that no scoring or session logic reads
  (question text, option labels, user id, language) are omitted.
-/

namespace GruenderAI

/-! ## Exact executable fractions -/

/-- An exact, executable model of a Python float: an unnormalized
fraction with a positive denominator.  Every arithmetic operation the
backend performs is exact on such fractions. -/
structure Q : Type where
  n : ℤ
  d : ℤ
  dpos : 0 < d

/-- The rational value of a fraction. -/
def Q.val (a : Q) : ℚ := (a.n : ℚ) / (a.d : ℚ)

instance : DecidableEq Q := fun a b =>
  decidable_of_iff (a.n = b.n ∧ a.d = b.d) (by cases a; cases b; simp)

/-- Embed an integer. -/
def Q.ofInt (i : ℤ) : Q := ⟨i, 1, Int.one_pos⟩

instance (k : ℕ) : OfNat Q k := ⟨Q.ofInt k⟩

def Q.add (a b : Q) : Q :=
  ⟨a.n * b.d + b.n * a.d, a.d * b.d, mul_pos a.dpos b.dpos⟩

def Q.mul (a b : Q) : Q :=
  ⟨a.n * b.n, a.d * b.d, mul_pos a.dpos b.dpos⟩

/-- Exact division; division by a zero value yields 0, a case no code
path below reaches (every division in the engine is guarded by a
positivity test). -/
def Q.div (a b : Q) : Q :=
  if h : 0 < b.n then ⟨a.n * b.d, a.d * b.n, mul_pos a.dpos h⟩
  else if h2 : b.n < 0 then
    ⟨-(a.n * b.d), a.d * (-b.n), mul_pos a.dpos (by omega)⟩
  else ⟨0, 1, Int.one_pos⟩

instance : Add Q := ⟨Q.add⟩
instance : Mul Q := ⟨Q.mul⟩
instance : Div Q := ⟨Q.div⟩

/-- Value comparison of fractions (cross multiplication). -/
def Q.le (a b : Q) : Prop := a.n * b.d ≤ b.n * a.d

/-- Strict value comparison of fractions. -/
def Q.lt (a b : Q) : Prop := a.n * b.d < b.n * a.d

instance : LE Q := ⟨Q.le⟩
instance : LT Q := ⟨Q.lt⟩

instance (a b : Q) : Decidable (a ≤ b) := Int.decLe _ _
instance (a b : Q) : Decidable (a < b) := Int.decLt _ _

/-- Floor of a fraction, computed by flooring integer division. -/
def Q.floor (a : Q) : ℤ := a.n.fdiv a.d

/-- Round-half-to-even to an integer (Python `round` on exact values).
The fractional part `(n - f·d)/d` is compared with `1/2` by cross
multiplication. -/
def roundHalfEven (x : Q) : ℤ :=
  if 2 * (x.n - x.floor * x.d) < x.d then x.floor
  else if x.d < 2 * (x.n - x.floor * x.d) then x.floor + 1
  else if x.floor % 2 = 0 then x.floor else x.floor + 1

/-- Python `round(x, 1)` on the exact model of floats. -/
def pyRound1 (x : Q) : Q := ⟨roundHalfEven (x * (10 : Q)), 10, by norm_num⟩

/-- Round-half-to-even on the rational value, used to characterize
`roundHalfEven`. -/
def rheQ (v : ℚ) : ℤ :=
  if v - ⌊v⌋ < 1/2 then ⌊v⌋
  else if 1/2 < v - ⌊v⌋ then ⌊v⌋ + 1
  else if ⌊v⌋ % 2 = 0 then ⌊v⌋ else ⌊v⌋ + 1

/-! ## Python dictionary and string primitives -/

/-- `dict.get(k, d)`: first value bound to `k`, or the default `d`. -/
def lookupD {α : Type} (tbl : List (String × α)) (k : String) (d : α) : α :=
  match tbl.find? (fun p => p.1 = k) with
  | some p => p.2
  | none => d

/-- `dict[k]` as an optional lookup (`none` when `k not in dict`). -/
def dictGet {α : Type} (m : List (String × α)) (k : String) : Option α :=
  (m.find? (fun p => p.1 = k)).map (·.2)

/-- `dict[k] = v`: replace in place when the key exists, else append
(Python dicts preserve insertion order). -/
def dictInsert {α : Type} (m : List (String × α)) (k : String) (v : α) :
    List (String × α) :=
  if m.any (fun p => p.1 = k) then
    m.map (fun p => if p.1 = k then (k, v) else p)
  else
    m ++ [(k, v)]

/-- ASCII lowercasing of one character (model of `str.lower`; every
scoring key and submitted option value is ASCII). -/
def charLower (c : Char) : Char :=
  if 65 ≤ c.toNat ∧ c.toNat ≤ 90 then Char.ofNat (c.toNat + 32) else c

/-- Python `answer.lower()` on the ASCII model. -/
def pyLower (s : String) : String := ⟨s.data.map charLower⟩

/-- Does `needle` start the list? -/
def startsWithChars : List Char → List Char → Bool
  | [], _ => true
  | _ :: _, [] => false
  | c :: cs, d :: ds => decide (c = d) && startsWithChars cs ds

/-- Does `needle` occur as a contiguous run? -/
def hasSubstrChars (needle : List Char) : List Char → Bool
  | [] => startsWithChars needle []
  | d :: ds => startsWithChars needle (d :: ds) || hasSubstrChars needle ds

/-- Python `needle in haystack` substring test. -/
def pyIn (needle haystack : String) : Bool :=
  hasSubstrChars needle.data haystack.data

/-- ASCII whitespace (model of `str.strip`). -/
def isSpaceChar (c : Char) : Bool :=
  decide (c = ' ') || decide (c = '\t') || decide (c = '\n') || decide (c = '\r')

/-- Python `str.strip()` on the ASCII-whitespace model. -/
def pyStrip (s : String) : String :=
  ⟨((s.data.dropWhile isSpaceChar).reverse.dropWhile isSpaceChar).reverse⟩

/-! ## Data model -/

/-- A raw answer value as submitted by the client (`answer: Any`); the
JSON payloads the engine distinguishes are strings and numbers. -/
inductive AnswerValue : Type
  | str (s : String)
  | num (q : Q)
  deriving DecidableEq

/-- Python `str(answer)`.  For numbers the precise rendering is
irrelevant to the engine: scoring tables are keyed by lowercase ASCII
identifiers, which no numeral rendering equals. -/
def pyStr : AnswerValue → String
  | .str s => s
  | .num q => toString q.n ++ (if q.d = 1 then "" else "/" ++ toString q.d)

/-- The question types occurring in `_score_answer`. -/
inductive QType : Type
  | likert
  | multiple_choice
  | yes_no
  | text
  deriving DecidableEq

/-- One question-bank record: id, dimension, type and the optional
explicit `scoring` table. -/
structure Question : Type where
  id : String
  dimension : String
  type : QType
  scoring : Option (List (String × Q)) := none
  deriving DecidableEq

/-- The five assessment dimensions, in declaration order. -/
def DIMENSIONS : List String :=
  [ "Unternehmerische Persönlichkeit"
  , "Fachkompetenz"
  , "Marktverständnis"
  , "Finanzplanung"
  , "Umsetzungsreife" ]

/-- The fixed 15-question bank (scoring-relevant fields). -/
def question_bank : List Question :=
  [ ⟨"ENT_001", "Unternehmerische Persönlichkeit", .likert, none⟩
  , ⟨"ENT_002", "Unternehmerische Persönlichkeit", .likert, none⟩
  , ⟨"ENT_003", "Unternehmerische Persönlichkeit", .likert, none⟩
  , ⟨"COMP_001", "Fachkompetenz", .multiple_choice,
      some [("no_experience", 1), ("less_1_year", 2), ("1_3_years", 3),
            ("3_5_years", 4), ("more_5_years", 5)]⟩
  , ⟨"COMP_002", "Fachkompetenz", .yes_no, some [("yes", 5), ("no", 1)]⟩
  , ⟨"COMP_003", "Fachkompetenz", .likert, none⟩
  , ⟨"MARKET_001", "Marktverständnis", .yes_no,
      some [("yes", 5), ("partial", 3), ("no", 1)]⟩
  , ⟨"MARKET_002", "Marktverständnis", .yes_no,
      some [("yes", 5), ("partial", 3), ("no", 1)]⟩
  , ⟨"MARKET_003", "Marktverständnis", .likert, none⟩
  , ⟨"FIN_001", "Finanzplanung", .yes_no,
      some [("yes", 5), ("partial", 3), ("no", 1)]⟩
  , ⟨"FIN_002", "Finanzplanung", .multiple_choice,
      some [("unclear", 1), ("under_10k", 4), ("10_30k", 5),
            ("30_50k", 4), ("over_50k", 3)]⟩
  , ⟨"FIN_003", "Finanzplanung", .likert, none⟩
  , ⟨"IMPL_001", "Umsetzungsreife", .multiple_choice,
      some [("idea", 2), ("concept", 3), ("planning", 4), ("ready", 5)]⟩
  , ⟨"IMPL_002", "Umsetzungsreife", .yes_no,
      some [("yes", 5), ("some", 3), ("no", 1)]⟩
  , ⟨"IMPL_003", "Umsetzungsreife", .likert, none⟩ ]

/-- `AssessmentEngine.total_questions`. -/
def total_questions : ℕ := question_bank.length

/-- `_score_answer`: score one answer on the 0–5 scale.  `none` models a
raised exception: `float(answer)` on a non-numeric value for likert
questions, and `answer.lower()` on a non-string for yes/no questions.
(`float` on a numeric string literal is not modelled; no theorem below
evaluates a likert question at a string answer.) -/
def score_answer (question : Question) (answer : AnswerValue) : Option Q :=
  match question.type with
  | .likert =>
      match answer with
      | .num q => some q
      | .str _ => none
  | .multiple_choice =>
      some (lookupD (question.scoring.getD []) (pyStr answer) 0)
  | .yes_no =>
      match answer with
      | .str s =>
          some (lookupD (question.scoring.getD [("yes", 5), ("no", 0)]) (pyLower s) 0)
      | .num _ => none
  | .text =>
      some (if (pyStrip (pyStr answer)).data.length > 0 then 3 else 0)

/-! ## Scoring engine -/

/-- One entry of the normalized per-dimension output. -/
structure DimEntry : Type where
  score : Q
  level : String
  interpretation : String
  deriving DecidableEq

/-- The result bundle of `calculate_results`. -/
structure Results : Type where
  overall_score : Q
  readiness_level : String
  dimensions : List (String × DimEntry)
  recommendations : List String
  next_steps : List String
  deriving DecidableEq

/-- One stored answer-map entry `{"answer": ..., "timestamp": ...}`
(timestamps are abstract instants). -/
structure AnswerEntry : Type where
  answer : AnswerValue
  timestamp : ℕ
  deriving DecidableEq

/-- `session_data["answers"]`. -/
abbrev AnswerMap := List (String × AnswerEntry)

/-- `_get_level`: qualitative level of a 0–5 average. -/
def _get_level (score : Q) : String :=
  if (4 : Q) ≤ score then "Hoch"
  else if (⟨25, 10, by norm_num⟩ : Q) ≤ score then "Mittel"
  else "Niedrig"

/-- The static (dimension, level) interpretation table. -/
def interpretations : List (String × List (String × String)) :=
  [ ("Unternehmerische Persönlichkeit",
      [ ("Hoch", "Sie zeigen ausgeprägte unternehmerische Eigenschaften wie Risikobereitschaft und Proaktivität.")
      , ("Mittel", "Ihre unternehmerischen Eigenschaften sind gut entwickelt, können aber noch gestärkt werden.")
      , ("Niedrig", "Es empfiehlt sich, an unternehmerischen Kompetenzen zu arbeiten.") ])
  , ("Fachkompetenz",
      [ ("Hoch", "Sie verfügen über starke fachliche Qualifikationen für Ihre Gründung.")
      , ("Mittel", "Ihre fachlichen Kompetenzen sind solide, spezifische Weiterbildung könnte hilfreich sein.")
      , ("Niedrig", "Fachliche Weiterbildung wird empfohlen, um Ihre Erfolgschancen zu erhöhen.") ])
  , ("Marktverständnis",
      [ ("Hoch", "Sie haben ein klares Verständnis Ihres Zielmarktes und Ihrer Kunden.")
      , ("Mittel", "Ihr Marktverständnis ist vorhanden, vertiefte Marktforschung wäre vorteilhaft.")
      , ("Niedrig", "Intensivere Auseinandersetzung mit dem Markt ist wichtig für Ihren Erfolg.") ])
  , ("Finanzplanung",
      [ ("Hoch", "Ihre Finanzplanung ist durchdacht und realistisch.")
      , ("Mittel", "Grundlegende Finanzplanung vorhanden, Details sollten verfeinert werden.")
      , ("Niedrig", "Professionelle Unterstützung bei der Finanzplanung wird dringend empfohlen.") ])
  , ("Umsetzungsreife",
      [ ("Hoch", "Sie sind gut vorbereitet und können mit der Umsetzung beginnen.")
      , ("Mittel", "Einige Vorbereitungen sind noch zu treffen, bevor Sie starten können.")
      , ("Niedrig", "Erhebliche Vorarbeit ist noch erforderlich für einen erfolgreichen Start.") ])
  ]

/-- `_get_interpretation`: fixed text for (dimension, level). -/
def _get_interpretation (dimension : String) (score : Q) : String :=
  lookupD (lookupD interpretations dimension []) (_get_level score) ""

/-- A per-dimension accumulator `{"raw_score": ..., "count": ...}`. -/
structure DimAcc : Type where
  raw_score : Q
  count : ℕ
  deriving DecidableEq

/-- `{dim: {"raw_score": 0, "count": 0} for dim in self.dimensions}`. -/
def initScores : List (String × DimAcc) :=
  DIMENSIONS.map (fun dim => (dim, ⟨0, 0⟩))

/-- Add one answer's score to its dimension's accumulator. -/
def addScore (acc : List (String × DimAcc)) (dim : String) (s : Q) :
    List (String × DimAcc) :=
  acc.map (fun p =>
    if p.1 = dim then (p.1, ⟨p.2.raw_score + s, p.2.count + 1⟩) else p)

/-- The `for question in self.question_bank` loop of `calculate_results`;
`none` propagates a scoring exception. -/
def scoreLoop (answers : AnswerMap) :
    List Question → List (String × DimAcc) → Option (List (String × DimAcc))
  | [], acc => some acc
  | q :: qs, acc =>
      match dictGet answers q.id with
      | none => scoreLoop answers qs acc
      | some entry =>
          match score_answer q entry.answer with
          | none => none
          | some s => scoreLoop answers qs (addScore acc q.dimension s)

/-- `raw_score / count` (the engine divides only when `count > 0`). -/
def dimAvg (acc : DimAcc) : Q := acc.raw_score / Q.ofInt acc.count

/-- The "Calculate normalized scores (0-100)" loop of
`calculate_results`: dimensions with `count = 0` are skipped. -/
def normalizeDims (dimension_scores : List (String × DimAcc)) :
    List (String × DimEntry) :=
  (dimension_scores.filter (fun p => 0 < p.2.count)).map (fun p =>
    (p.1, ⟨pyRound1 (dimAvg p.2 * (20 : Q)), _get_level (dimAvg p.2),
           _get_interpretation p.1 (dimAvg p.2)⟩))

/-- The fixed weights of `_calculate_overall_score` (exact decimals). -/
def weights : List (String × Q) :=
  [ ("Unternehmerische Persönlichkeit", ⟨20, 100, by norm_num⟩)
  , ("Fachkompetenz", ⟨25, 100, by norm_num⟩)
  , ("Marktverständnis", ⟨25, 100, by norm_num⟩)
  , ("Finanzplanung", ⟨20, 100, by norm_num⟩)
  , ("Umsetzungsreife", ⟨10, 100, by norm_num⟩) ]

/-- The `(weighted_sum, total_weight)` fold of `_calculate_overall_score`. -/
def overallFold (dimensions : List (String × DimEntry)) : Q × Q :=
  dimensions.foldl (fun acc p =>
    match dictGet weights p.1 with
    | some w => (acc.1 + p.2.score * w, acc.2 + w)
    | none => acc) ((0 : Q), (0 : Q))

/-- `_calculate_overall_score`. -/
def _calculate_overall_score (dimensions : List (String × DimEntry)) : Q :=
  pyRound1 (if (0 : Q) < (overallFold dimensions).2 then
              (overallFold dimensions).1 / (overallFold dimensions).2
            else 0)

/-- `_get_readiness_level`. -/
def _get_readiness_level (overall_score : Q) : String :=
  if (75 : Q) ≤ overall_score then "Hoch - Sehr gute Bewilligungschancen"
  else if (55 : Q) ≤ overall_score then "Mittel - Gute Chancen mit Optimierungen"
  else if (35 : Q) ≤ overall_score then "Ausbaufähig - Verbesserungen erforderlich"
  else "Niedrig - Erhebliche Vorbereitung notwendig"

/-- The `weak_dimensions` comprehension of `_generate_recommendations`. -/
def weakDimensions (dimensions : List (String × DimEntry)) : List String :=
  (dimensions.filter (fun p => p.2.score < (60 : Q))).map (·.1)

/-- The "excellent preparation" recommendation. -/
def recExcellent : String :=
  "Ihre Vorbereitung ist ausgezeichnet. Fokussieren Sie jetzt auf die formale Antragstellung."

/-- The fixed recommendation for a weak "Finanzplanung". -/
def recFinanzplanung : String :=
  "Erstellen Sie eine detaillierte 3-Jahres-Finanzplanung mit realistischen Annahmen."

/-- The fixed recommendation for a weak "Marktverständnis". -/
def recMarkt : String :=
  "Führen Sie eine gründliche Markt- und Wettbewerbsanalyse durch."

/-- The fixed recommendation for a weak "Fachkompetenz". -/
def recFachkompetenz : String :=
  "Dokumentieren Sie Ihre fachlichen Qualifikationen und Branchenerfahrung detailliert."

/-- The fixed recommendation for a weak "Umsetzungsreife". -/
def recUmsetzung : String :=
  "Entwickeln Sie einen konkreten Zeitplan für Ihre ersten 6 Monate."

/-- The always-appended closing recommendation. -/
def recClosing : String :=
  "Nutzen Sie die Gründungszuschuss-Beratung Ihrer Agentur für Arbeit."

/-- `_generate_recommendations`: conditional appends, then `[:5]`. -/
def _generate_recommendations (dimensions : List (String × DimEntry))
    (overall_score : Q) : List String :=
  (((if (75 : Q) ≤ overall_score then [recExcellent] else []) ++
    (if "Finanzplanung" ∈ weakDimensions dimensions then [recFinanzplanung] else []) ++
    (if "Marktverständnis" ∈ weakDimensions dimensions then [recMarkt] else []) ++
    (if "Fachkompetenz" ∈ weakDimensions dimensions then [recFachkompetenz] else []) ++
    (if "Umsetzungsreife" ∈ weakDimensions dimensions then [recUmsetzung] else []) ++
    [recClosing]).take 5)

/-- The next-step list of the "Hoch" tier. -/
def stepsHoch : List String :=
  [ "Terminvereinbarung mit Ihrer Agentur für Arbeit"
  , "Businessplan finalisieren und formatieren"
  , "Stellungnahme einer fachkundigen Stelle einholen"
  , "Alle erforderlichen Unterlagen zusammenstellen"
  , "Antrag einreichen" ]

/-- The next-step list of the "Mittel" tier. -/
def stepsMittel : List String :=
  [ "Schwachstellen in Ihrem Konzept identifizieren und beheben"
  , "Businessplan von Experten prüfen lassen"
  , "Fehlende Qualifikationen nachweisen oder aufbauen"
  , "Finanzplanung mit einem Berater durchgehen"
  , "Dann Antrag bei der Agentur für Arbeit stellen" ]

/-- The next-step list of the remaining tiers. -/
def stepsFallback : List String :=
  [ "Gründungsberatung in Anspruch nehmen"
  , "Businessplan-Workshop oder -Kurs besuchen"
  , "Geschäftsidee schärfen und validieren"
  , "Fachliche Kompetenzen gezielt ausbauen"
  , "Assessment nach Vorbereitung wiederholen" ]

/-- `_generate_next_steps`: a fixed 5-element list selected by substring
matching on the readiness label; `dimensions` is accepted but unread,
exactly as in the code. -/
def _generate_next_steps (readiness_level : String)
    (dimensions : List (String × DimEntry)) : List String :=
  if pyIn "Hoch" readiness_level then stepsHoch
  else if pyIn "Mittel" readiness_level then stepsMittel
  else stepsFallback

/-- Assemble the result bundle from the accumulated dimension scores. -/
def buildResults (dimension_scores : List (String × DimAcc)) : Results :=
  { overall_score := _calculate_overall_score (normalizeDims dimension_scores)
  , readiness_level :=
      _get_readiness_level (_calculate_overall_score (normalizeDims dimension_scores))
  , dimensions := normalizeDims dimension_scores
  , recommendations :=
      _generate_recommendations (normalizeDims dimension_scores)
        (_calculate_overall_score (normalizeDims dimension_scores))
  , next_steps :=
      _generate_next_steps
        (_get_readiness_level (_calculate_overall_score (normalizeDims dimension_scores)))
        (normalizeDims dimension_scores) }

/-- `calculate_results` on a session's answer map; `none` models an
exception escaping `_score_answer` (surfaced by the API as a 500). -/
def calculate_results (answers : AnswerMap) : Option Results :=
  (scoreLoop answers question_bank initScores).map buildResults

/-! ## Session orchestration (main.py) -/

/-- A stored session (the fields the logic reads). -/
structure Session : Type where
  current_question_index : ℕ
  answers : AnswerMap
  started_at : ℕ
  deriving DecidableEq

/-- The module-level `sessions` dict. -/
abbrev Sessions := List (String × Session)

/-- Application-level errors: 404 Session not found / 500 internal. -/
inductive ApiError : Type
  | notFound
  | internal
  deriving DecidableEq

/-- `AssessmentEngine.get_next_question`: the question at the current
pointer, or `none` when exhausted (rendering fields omitted). -/
def get_next_question (session_data : Session) : Option Question :=
  question_bank.get? session_data.current_question_index

/-- Response of `POST /api/assessment/answer`. -/
structure SubmitAnswerResponse : Type where
  next_question : Option Question
  progress : ℕ
  is_complete : Bool
  deriving DecidableEq

/-- `POST /api/assessment/answer`: store the answer (unconditional
overwrite), advance the pointer, report progress.  Returns the response
(or error) together with the session store after the call; `progress`
is `int(index / total * 100)`, i.e. the floor. -/
def submit_answer (sessions : Sessions) (session_id question_id : String)
    (answer : AnswerValue) (now : ℕ) :
    Except ApiError SubmitAnswerResponse × Sessions :=
  match dictGet sessions session_id with
  | none => (.error .notFound, sessions)
  | some session_data =>
      (.ok { next_question :=
               if total_questions ≤ session_data.current_question_index + 1 then none
               else get_next_question
                 { session_data with
                   answers := dictInsert session_data.answers question_id ⟨answer, now⟩
                   current_question_index := session_data.current_question_index + 1 }
           , progress := (session_data.current_question_index + 1) * 100 / total_questions
           , is_complete :=
               decide (total_questions ≤ session_data.current_question_index + 1) }
      , dictInsert sessions session_id
          { session_data with
            answers := dictInsert session_data.answers question_id ⟨answer, now⟩
            current_question_index := session_data.current_question_index + 1 })

/-- `POST /api/assessment/results`: look up the session and score it.
The store is returned unchanged (the handler never mutates it). -/
def get_results (sessions : Sessions) (session_id : String) :
    Except ApiError Results × Sessions :=
  match dictGet sessions session_id with
  | none => (.error .notFound, sessions)
  | some session_data =>
      match calculate_results session_data.answers with
      | none => (.error .internal, sessions)
      | some results => (.ok results, sessions)

/-- Response of `GET /api/assessment/session/{id}`. -/
structure SessionInfo : Type where
  session_id : String
  progress : ℕ
  answers_count : ℕ
  started_at : ℕ
  deriving DecidableEq

/-- `GET /api/assessment/session/{id}`. -/
def get_session_info (sessions : Sessions) (session_id : String) :
    Except ApiError SessionInfo × Sessions :=
  match dictGet sessions session_id with
  | none => (.error .notFound, sessions)
  | some session_data =>
      (.ok { session_id := session_id
           , progress := session_data.current_question_index * 100 / total_questions
           , answers_count := session_data.answers.length
           , started_at := session_data.started_at }
      , sessions)

/-- `POST /api/assessment/start`: fresh session with pointer 0 and empty
answer map (the generated uuid is a parameter of the model). -/
def start_assessment (sessions : Sessions) (session_id : String) (now : ℕ) :
    Option Question × Sessions :=
  (get_next_question ⟨0, [], now⟩, dictInsert sessions session_id ⟨0, [], now⟩)

/-! ## Claim-level definitions -/

/-- The fixed message attached to each weak dimension. -/
def recFor : String → String
  | "Finanzplanung" => recFinanzplanung
  | "Marktverständnis" => recMarkt
  | "Fachkompetenz" => recFachkompetenz
  | "Umsetzungsreife" => recUmsetzung
  | _ => ""

/-- Is `dim` present in the per-dimension output with a normalized score
below 60? -/
def isWeak (dimensions : List (String × DimEntry)) (dim : String) : Bool :=
  match dictGet dimensions dim with
  | some e => decide (e.score < (60 : Q))
  | none => false

/-- Value-level rounding to one decimal (round-half-to-even). -/
def pyRound1Q (v : ℚ) : ℚ := (rheQ (v * 10) : ℚ) / 10

/-- Weighted numerator over the dimensions present in the output. -/
def wSum (dimensions : List (String × DimEntry)) : ℚ :=
  (dimensions.filterMap
    (fun p => (dictGet weights p.1).map (fun w => p.2.score.val * w.val))).sum

/-- Weight denominator over the dimensions present in the output. -/
def tW (dimensions : List (String × DimEntry)) : ℚ :=
  (dimensions.filterMap (fun p => (dictGet weights p.1).map Q.val)).sum

/-- Every stored answer to a likert question is a numeric value in
[0, 5] (the valid 1–5 ratings satisfy this). -/
def likertAnswersInRange (answers : AnswerMap) : Bool :=
  question_bank.all (fun q =>
    match q.type with
    | .likert =>
        answers.all (fun p =>
          if p.1 = q.id then
            match p.2.answer with
            | .num x => decide ((0 : Q) ≤ x ∧ x ≤ (5 : Q))
            | .str _ => true
          else true)
    | _ => true)

/-- Witness input: the three likert ENT questions answered with 5. -/
def amENT : AnswerMap :=
  [ ("ENT_001", ⟨.num 5, 0⟩)
  , ("ENT_002", ⟨.num 5, 1⟩)
  , ("ENT_003", ⟨.num 5, 2⟩) ]

/-- The result bundle computed for `amENT` (witness value). -/
def resultsENT : Results := (calculate_results amENT).getD ⟨0, "", [], [], []⟩

/-! ## Value lemmas -/

theorem Q.dQ_pos (a : Q) : (0 : ℚ) < (a.d : ℚ) := by exact_mod_cast a.dpos

theorem Q.dQ_ne (a : Q) : ((a.d : ℚ)) ≠ 0 := a.dQ_pos.ne'

theorem Q.val_ofInt (i : ℤ) : (Q.ofInt i).val = (i : ℚ) := by
  simp [Q.val, Q.ofInt]

theorem Q.val_ofNat (k : ℕ) : (no_index (OfNat.ofNat k) : Q).val = (k : ℚ) := by
  simpa using Q.val_ofInt k

theorem Q.val_add (a b : Q) : (a + b).val = a.val + b.val := by
  show (Q.add a b).val = _
  simp only [Q.val, Q.add]
  rw [div_add_div _ _ a.dQ_ne b.dQ_ne]
  push_cast
  ring_nf

theorem Q.val_mul (a b : Q) : (a * b).val = a.val * b.val := by
  show (Q.mul a b).val = _
  simp only [Q.val, Q.mul]
  push_cast
  rw [div_mul_div_comm]

theorem Q.val_div (a b : Q) : (a / b).val = a.val / b.val := by
  show (Q.div a b).val = _
  unfold Q.div
  split
  · next h =>
    have hb : ((b.n : ℚ)) ≠ 0 := by exact_mod_cast h.ne'
    simp only [Q.val]
    push_cast
    field_simp
  · split
    · next h2 =>
      have hb : ((b.n : ℚ)) ≠ 0 := by
        have : b.n ≠ 0 := by omega
        exact_mod_cast this
      simp only [Q.val]
      push_cast
      field_simp
    · next h1 h2 =>
      have hb : b.n = 0 := by omega
      simp [Q.val, hb]

theorem Q.le_iff_val (a b : Q) : a ≤ b ↔ a.val ≤ b.val := by
  show Q.le a b ↔ _
  rw [Q.le, Q.val, Q.val, div_le_div_iff₀ a.dQ_pos b.dQ_pos]
  constructor
  · intro h; exact_mod_cast h
  · intro h; exact_mod_cast h

theorem Q.lt_iff_val (a b : Q) : a < b ↔ a.val < b.val := by
  show Q.lt a b ↔ _
  rw [Q.lt, Q.val, Q.val, div_lt_div_iff₀ a.dQ_pos b.dQ_pos]
  constructor
  · intro h; exact_mod_cast h
  · intro h; exact_mod_cast h

theorem Q.lt_iff_not_le (a b : Q) : a < b ↔ ¬ b ≤ a := by
  show Q.lt a b ↔ ¬ Q.le b a
  unfold Q.lt Q.le
  exact Iff.symm Int.not_le

theorem Q.floor_val (a : Q) : a.floor = ⌊a.val⌋ := by
  have hd : ((a.d.toNat : ℤ)) = a.d := Int.toNat_of_nonneg a.dpos.le
  have hv : a.val = ((a.n : ℚ) / ((a.d.toNat : ℕ) : ℚ)) := by
    rw [Q.val]
    congr 1
    exact_mod_cast hd.symm
  rw [hv, Rat.floor_intCast_div_natCast, Q.floor,
      Int.fdiv_eq_ediv _ a.dpos.le, hd]

theorem roundHalfEven_val (x : Q) : roundHalfEven x = rheQ x.val := by
  have hfrac : x.val - (x.floor : ℚ) = ((x.n - x.floor * x.d : ℤ) : ℚ) / (x.d : ℚ) := by
    rw [Q.val, eq_div_iff x.dQ_ne, sub_mul, div_mul_cancel₀ _ x.dQ_ne]
    push_cast
    ring
  have h1 : (2 * (x.n - x.floor * x.d) < x.d) ↔ (x.val - (x.floor : ℚ) < 1/2) := by
    rw [hfrac, div_lt_iff₀ x.dQ_pos]
    constructor
    · intro h
      have h2 : ((2 * (x.n - x.floor * x.d) : ℤ) : ℚ) < ((x.d : ℤ) : ℚ) := by
        exact_mod_cast h
      push_cast at h2 ⊢
      linarith
    · intro h
      have h2 : ((2 * (x.n - x.floor * x.d) : ℤ) : ℚ) < ((x.d : ℤ) : ℚ) := by
        push_cast at h ⊢
        linarith
      exact_mod_cast h2
  have h2 : (x.d < 2 * (x.n - x.floor * x.d)) ↔ ((1:ℚ)/2 < x.val - (x.floor : ℚ)) := by
    rw [hfrac, lt_div_iff₀ x.dQ_pos]
    constructor
    · intro h
      have h3 : ((x.d : ℤ) : ℚ) < ((2 * (x.n - x.floor * x.d) : ℤ) : ℚ) := by
        exact_mod_cast h
      push_cast at h3 ⊢
      linarith
    · intro h
      have h3 : ((x.d : ℤ) : ℚ) < ((2 * (x.n - x.floor * x.d) : ℤ) : ℚ) := by
        push_cast at h ⊢
        linarith
      exact_mod_cast h3
  unfold roundHalfEven rheQ
  rw [← Q.floor_val]
  exact if_congr h1 rfl (if_congr h2 rfl rfl)

theorem rheQ_nonneg {v : ℚ} (h : 0 ≤ v) : 0 ≤ rheQ v := by
  have hf : (0 : ℤ) ≤ ⌊v⌋ := Int.le_floor.2 (by exact_mod_cast h)
  unfold rheQ
  split
  · exact hf
  · split
    · omega
    · split <;> omega

theorem rheQ_le_of_le {v : ℚ} {m : ℤ} (h : v ≤ (m : ℚ)) : rheQ v ≤ m := by
  have hf : ⌊v⌋ ≤ m := by
    calc ⌊v⌋ ≤ ⌊(m : ℚ)⌋ := Int.floor_le_floor h
    _ = m := Int.floor_intCast m
  unfold rheQ
  split
  · exact hf
  · next hlt =>
    push_neg at hlt
    have hfl : (⌊v⌋ : ℚ) + 1/2 ≤ v := by linarith
    have hmv : (⌊v⌋ : ℚ) < (m : ℚ) := by linarith
    have hm : ⌊v⌋ < m := by exact_mod_cast hmv
    split
    · omega
    · split <;> omega

theorem rheQ_ge_of_ge {v : ℚ} {m : ℤ} (h : (m : ℚ) ≤ v) : m ≤ rheQ v := by
  have hf : m ≤ ⌊v⌋ := Int.le_floor.2 h
  unfold rheQ
  split
  · exact hf
  · split
    · omega
    · split <;> omega

theorem pyRound1_val (x : Q) :
    (pyRound1 x).val = ((rheQ (x.val * 10) : ℚ)) / 10 := by
  have hmul : (x * (10 : Q)).val = x.val * 10 := by
    rw [Q.val_mul, Q.val_ofNat]
    norm_num
  have hpy : (pyRound1 x).val = ((roundHalfEven (x * (10 : Q)) : ℚ)) / 10 := by
    simp [pyRound1, Q.val]
  rw [hpy, roundHalfEven_val, hmul]

theorem pyRound1_val_nonneg {x : Q} (h : 0 ≤ x.val) : 0 ≤ (pyRound1 x).val := by
  rw [pyRound1_val]
  have h1 : (0 : ℤ) ≤ rheQ (x.val * 10) := rheQ_nonneg (by linarith)
  have h10 : ((0 : ℤ) : ℚ) ≤ (rheQ (x.val * 10) : ℚ) := by exact_mod_cast h1
  positivity

theorem pyRound1_val_le {x : Q} {m : ℤ} (h : x.val ≤ (m : ℚ)) :
    (pyRound1 x).val ≤ (m : ℚ) := by
  rw [pyRound1_val]
  have h1 : rheQ (x.val * 10) ≤ 10 * m := by
    apply rheQ_le_of_le
    push_cast
    linarith
  have hc : (rheQ (x.val * 10) : ℚ) ≤ ((10 * m : ℤ) : ℚ) := by exact_mod_cast h1
  push_cast at hc
  linarith

theorem pyRound1_val_ge {x : Q} {m : ℤ} (h : (m : ℚ) ≤ x.val) :
    (m : ℚ) ≤ (pyRound1 x).val := by
  rw [pyRound1_val]
  have h1 : 10 * m ≤ rheQ (x.val * 10) := by
    apply rheQ_ge_of_ge
    push_cast
    linarith
  have hc : ((10 * m : ℤ) : ℚ) ≤ (rheQ (x.val * 10) : ℚ) := by exact_mod_cast h1
  push_cast at hc
  linarith

/-! ## Dictionary lemmas -/

theorem dictGet_cons {α : Type} (p : String × α) (t : List (String × α)) (k : String) :
    dictGet (p :: t) k = if p.1 = k then some p.2 else dictGet t k := by
  by_cases h : p.1 = k
  · simp [dictGet, List.find?_cons_of_pos, h]
  · simp [dictGet, List.find?_cons_of_neg, h]

theorem dictGet_replace {α : Type} (m : List (String × α)) (k : String) (v : α) :
    dictGet (m.map (fun p => if p.1 = k then (k, v) else p)) k
      = if m.any (fun p => p.1 = k) then some v else none := by
  induction m with
  | nil => rfl
  | cons p t ih =>
    by_cases h : p.1 = k
    · simp [dictGet_cons, h]
    · simp only [List.map_cons, if_neg h, dictGet_cons, ih, List.any_cons,
        decide_eq_false h, Bool.false_or]

theorem dictGet_append_right {α : Type} (m : List (String × α)) (k : String) (v : α)
    (h : ∀ p ∈ m, p.1 ≠ k) :
    dictGet (m ++ [(k, v)]) k = some v := by
  induction m with
  | nil => simp [dictGet_cons]
  | cons p t ih =>
    have hp := h p (by simp)
    simp only [List.cons_append, dictGet_cons, if_neg hp]
    exact ih (fun p2 hp2 => h p2 (by simp [hp2]))

theorem dictGet_dictInsert_self {α : Type} (m : List (String × α)) (k : String) (v : α) :
    dictGet (dictInsert m k v) k = some v := by
  unfold dictInsert
  split
  · next h => rw [dictGet_replace]; simp_all
  · next h =>
    apply dictGet_append_right
    intro p hp hk
    exact h (List.any_eq_true.2 ⟨p, hp, by simp [hk]⟩)

theorem dictGet_replace_ne {α : Type} (m : List (String × α)) (k k' : String) (v : α)
    (hne : k' ≠ k) :
    dictGet (m.map (fun p => if p.1 = k then (k, v) else p)) k' = dictGet m k' := by
  induction m with
  | nil => rfl
  | cons p t ih =>
    by_cases h : p.1 = k
    · have hkk : ¬ k = k' := fun he => hne he.symm
      have hpk : ¬ p.1 = k' := by rw [h]; exact hkk
      simp [dictGet_cons, h, hkk, hpk, ih]
    · simp only [List.map_cons, if_neg h, dictGet_cons]
      by_cases h2 : p.1 = k' <;> simp [h2, ih]

theorem dictGet_append_sing_ne {α : Type} (m : List (String × α)) (k k' : String) (v : α)
    (hne : k' ≠ k) :
    dictGet (m ++ [(k, v)]) k' = dictGet m k' := by
  induction m with
  | nil =>
    have : k ≠ k' := fun he => hne he.symm
    simp [dictGet_cons, this, dictGet]
  | cons p t ih => by_cases h : p.1 = k' <;> simp [dictGet_cons, h, ih]

theorem dictGet_dictInsert_ne {α : Type} (m : List (String × α)) (k k' : String) (v : α)
    (hne : k' ≠ k) :
    dictGet (dictInsert m k v) k' = dictGet m k' := by
  unfold dictInsert
  split
  · exact dictGet_replace_ne m k k' v hne
  · exact dictGet_append_sing_ne m k k' v hne

theorem map_keys_replace {α : Type} (m : List (String × α)) (k : String) (v : α) :
    (m.map (fun p => if p.1 = k then (k, v) else p)).map (·.1) = m.map (·.1) := by
  induction m with
  | nil => rfl
  | cons p t ih =>
    by_cases h : p.1 = k <;> simp [h, ih]

theorem dictGet_isSome_any {α : Type} (m : List (String × α)) (k : String) :
    (dictGet m k).isSome = m.any (fun p => p.1 = k) := by
  induction m with
  | nil => rfl
  | cons p t ih =>
    simp only [dictGet_cons, List.any_cons]
    by_cases h : p.1 = k <;> simp [h, ih]

theorem dictInsert_keys_of_mem {α : Type} (m : List (String × α)) (k : String) (v : α)
    (h : (dictGet m k).isSome = true) :
    (dictInsert m k v).map (·.1) = m.map (·.1) := by
  rw [dictGet_isSome_any] at h
  unfold dictInsert
  rw [if_pos h]
  exact map_keys_replace m k v

/-! ## Scoring-loop step equations -/

theorem scoreLoop_cons_none (answers : AnswerMap) (q : Question) (qs : List Question)
    (acc : List (String × DimAcc)) (h : dictGet answers q.id = none) :
    scoreLoop answers (q :: qs) acc = scoreLoop answers qs acc := by
  simp [scoreLoop, h]

theorem scoreLoop_cons_some (answers : AnswerMap) (q : Question) (qs : List Question)
    (acc : List (String × DimAcc)) (e : AnswerEntry) (s : Q)
    (h : dictGet answers q.id = some e) (hs : score_answer q e.answer = some s) :
    scoreLoop answers (q :: qs) acc = scoreLoop answers qs (addScore acc q.dimension s) := by
  simp [scoreLoop, h, hs]

theorem scoreLoop_cons_err (answers : AnswerMap) (q : Question) (qs : List Question)
    (acc : List (String × DimAcc)) (e : AnswerEntry)
    (h : dictGet answers q.id = some e) (hs : score_answer q e.answer = none) :
    scoreLoop answers (q :: qs) acc = none := by
  simp [scoreLoop, h, hs]

/-! ## Structure of the accumulated scores -/

theorem addScore_keys (acc : List (String × DimAcc)) (dim : String) (s : Q) :
    (addScore acc dim s).map (·.1) = acc.map (·.1) := by
  unfold addScore
  induction acc with
  | nil => rfl
  | cons p t ih =>
    simp only [List.map_cons, ih]
    by_cases h : p.1 = dim <;> simp [h]

theorem scoreLoop_keys (answers : AnswerMap) :
    ∀ (qs : List Question) (acc ds : List (String × DimAcc)),
      scoreLoop answers qs acc = some ds → ds.map (·.1) = acc.map (·.1) := by
  intro qs
  induction qs with
  | nil =>
    intro acc ds h
    simp only [scoreLoop] at h
    rw [← Option.some.inj h]
  | cons q t ih =>
    intro acc ds h
    cases hd : dictGet answers q.id with
    | none =>
      rw [scoreLoop_cons_none answers q t acc hd] at h
      exact ih acc ds h
    | some e =>
      cases hs : score_answer q e.answer with
      | none =>
        rw [scoreLoop_cons_err answers q t acc e hd hs] at h
        cases h
      | some sc =>
        rw [scoreLoop_cons_some answers q t acc e sc hd hs] at h
        rw [ih _ ds h, addScore_keys]

theorem scoreLoop_unanswered (answers : AnswerMap) :
    ∀ (qs : List Question) (acc : List (String × DimAcc)),
      (∀ q ∈ qs, dictGet answers q.id = none) → scoreLoop answers qs acc = some acc := by
  intro qs
  induction qs with
  | nil => intro acc _; rfl
  | cons q t ih =>
    intro acc h
    rw [scoreLoop_cons_none answers q t acc (h q (by simp))]
    exact ih acc (fun q2 h2 => h q2 (by simp [h2]))

theorem normalizeDims_keys (ds : List (String × DimAcc)) :
    (normalizeDims ds).map (·.1) = (ds.filter (fun p => 0 < p.2.count)).map (·.1) := by
  unfold normalizeDims
  rw [List.map_map]
  rfl

theorem mem_normalizeDims_key (ds : List (String × DimAcc))
    (hkeys : ds.map (·.1) = DIMENSIONS) :
    ∀ p ∈ normalizeDims ds, p.1 ∈ DIMENSIONS := by
  intro p hp
  unfold normalizeDims at hp
  obtain ⟨q, hq, rfl⟩ := List.mem_map.1 hp
  have hmem : q.1 ∈ ds.map (·.1) :=
    List.mem_map_of_mem _ (List.mem_of_mem_filter hq)
  rwa [hkeys] at hmem

/-! ## The weighted overall score -/

theorem weights_pos (k : String) (w : Q) (h : dictGet weights k = some w) :
    0 < w.val ∧ w.val ≤ 1 := by
  have hmem : ∃ p ∈ weights, p.2 = w := by
    unfold dictGet at h
    cases hf : weights.find? (fun p => p.1 = k) with
    | none => rw [hf] at h; cases h
    | some p =>
      rw [hf] at h
      exact ⟨p, List.mem_of_find?_eq_some hf, by simpa using h⟩
  obtain ⟨p, hp, rfl⟩ := hmem
  fin_cases hp <;> norm_num [Q.val]

theorem weights_total : ∀ k ∈ DIMENSIONS, (dictGet weights k).isSome = true := by decide

theorem overallFold_go (dims : List (String × DimEntry)) :
    ∀ a : Q × Q,
      ((dims.foldl (fun acc p =>
          match dictGet weights p.1 with
          | some w => (acc.1 + p.2.score * w, acc.2 + w)
          | none => acc) a).1.val = a.1.val + wSum dims)
      ∧ ((dims.foldl (fun acc p =>
          match dictGet weights p.1 with
          | some w => (acc.1 + p.2.score * w, acc.2 + w)
          | none => acc) a).2.val = a.2.val + tW dims) := by
  induction dims with
  | nil => intro a; simp [wSum, tW]
  | cons p t ih =>
    intro a
    cases hw : dictGet weights p.1 with
    | none =>
      simp only [List.foldl_cons, hw]
      rcases ih a with ⟨ih1, ih2⟩
      constructor
      · rw [ih1]; simp [wSum, List.filterMap_cons, hw]
      · rw [ih2]; simp [tW, List.filterMap_cons, hw]
    | some w =>
      simp only [List.foldl_cons, hw]
      rcases ih (a.1 + p.2.score * w, a.2 + w) with ⟨ih1, ih2⟩
      constructor
      · rw [ih1, Q.val_add, Q.val_mul]
        simp only [wSum, List.filterMap_cons, hw, Option.map_some', List.sum_cons]
        ring
      · rw [ih2, Q.val_add]
        simp only [tW, List.filterMap_cons, hw, Option.map_some', List.sum_cons]
        ring

theorem overallFold_val (dims : List (String × DimEntry)) :
    (overallFold dims).1.val = wSum dims ∧ (overallFold dims).2.val = tW dims := by
  have h0 : ((0 : Q)).val = 0 := by
    rw [Q.val_ofNat]
    norm_num
  rcases overallFold_go dims ((0 : Q), (0 : Q)) with ⟨h1, h2⟩
  exact ⟨by rw [overallFold, h1, h0, zero_add],
         by rw [overallFold, h2, h0, zero_add]⟩

theorem tW_pos (dims : List (String × DimEntry))
    (hk : ∀ p ∈ dims, (dictGet weights p.1).isSome = true) (hne : dims ≠ []) :
    0 < tW dims := by
  apply List.sum_pos
  · intro v hv
    obtain ⟨p, hp, hw⟩ := List.mem_filterMap.1 hv
    cases hwg : dictGet weights p.1 with
    | none => rw [hwg] at hw; cases hw
    | some w =>
      rw [hwg] at hw
      simp only [Option.map_some', Option.some.injEq] at hw
      rw [← hw]
      exact (weights_pos p.1 w hwg).1
  · cases dims with
    | nil => exact absurd rfl hne
    | cons p t =>
      have hps := hk p (by simp)
      cases hwg : dictGet weights p.1 with
      | none => rw [hwg] at hps; cases hps
      | some w => simp [tW, List.filterMap_cons, hwg]

theorem tW_nonneg (dims : List (String × DimEntry)) : 0 ≤ tW dims := by
  apply List.sum_nonneg
  intro v hv
  obtain ⟨p, hp, hw⟩ := List.mem_filterMap.1 hv
  cases hwg : dictGet weights p.1 with
  | none => rw [hwg] at hw; cases hw
  | some w =>
    rw [hwg] at hw
    simp only [Option.map_some', Option.some.injEq] at hw
    rw [← hw]
    exact (weights_pos p.1 w hwg).1.le

theorem overall_val (dims : List (String × DimEntry))
    (hk : ∀ p ∈ dims, (dictGet weights p.1).isSome = true) (hne : dims ≠ []) :
    (_calculate_overall_score dims).val = pyRound1Q (wSum dims / tW dims) := by
  unfold _calculate_overall_score
  have hpos : 0 < tW dims := tW_pos dims hk hne
  have hfold := overallFold_val dims
  have h0 : ((0 : Q)).val = 0 := by
    rw [Q.val_ofNat]
    norm_num
  have hcond : (0 : Q) < (overallFold dims).2 := by
    rw [Q.lt_iff_val, hfold.2, h0]
    exact hpos
  rw [if_pos hcond, pyRound1_val, Q.val_div, hfold.1, hfold.2]
  rfl

/-! ## Score bounds -/

theorem Q.val_zero : ((0 : Q)).val = 0 := by
  rw [Q.val_ofNat]
  norm_num

theorem Q.val_five : ((5 : Q)).val = 5 := by
  rw [Q.val_ofNat]
  norm_num

theorem Q.bounds_val {t : Q} (h : (0 : Q) ≤ t ∧ t ≤ (5 : Q)) :
    0 ≤ t.val ∧ t.val ≤ 5 := by
  rcases h with ⟨h1, h2⟩
  rw [Q.le_iff_val, Q.val_zero] at h1
  rw [Q.le_iff_val, Q.val_five] at h2
  exact ⟨h1, h2⟩

theorem lookupD_bound {α : Type} (P : α → Prop) (tbl : List (String × α)) (k : String)
    (d : α) (htbl : ∀ kv ∈ tbl, P kv.2) (hd : P d) : P (lookupD tbl k d) := by
  unfold lookupD
  cases hf : tbl.find? (fun p => p.1 = k) with
  | none => exact hd
  | some p => exact htbl p (List.mem_of_find?_eq_some hf)

theorem bank_scoring_bounds :
    ∀ q ∈ question_bank, ∀ kv ∈ q.scoring.getD [("yes", 5), ("no", 0)],
      (0 : Q) ≤ kv.2 ∧ kv.2 ≤ (5 : Q) := by decide

theorem score_answer_bound_of (q : Question) (hq : q ∈ question_bank) (a : AnswerValue)
    (s : Q)
    (hlik : q.type = .likert → ∀ x : Q, a = .num x → ((0 : Q) ≤ x ∧ x ≤ (5 : Q)))
    (hs : score_answer q a = some s) :
    0 ≤ s.val ∧ s.val ≤ 5 := by
  have hb : ∀ kv ∈ q.scoring.getD [("yes", 5), ("no", 0)],
      (0 : Q) ≤ kv.2 ∧ kv.2 ≤ (5 : Q) := bank_scoring_bounds q hq
  have hb2 : ∀ kv ∈ q.scoring.getD [], (0 : Q) ≤ kv.2 ∧ kv.2 ≤ (5 : Q) := by
    cases hsc : q.scoring with
    | none => simp
    | some tbl =>
      intro kv hkv
      exact hb kv (by simpa [hsc] using hkv)
  unfold score_answer at hs
  cases hqt : q.type with
  | likert =>
    simp only [hqt] at hs
    cases a with
    | str s2 => cases hs
    | num x =>
      obtain rfl := Option.some.inj hs
      exact Q.bounds_val (hlik hqt x rfl)
  | multiple_choice =>
    simp only [hqt] at hs
    obtain rfl := Option.some.inj hs
    exact Q.bounds_val
      (lookupD_bound (fun t => (0 : Q) ≤ t ∧ t ≤ (5 : Q))
        (q.scoring.getD []) (pyStr a) 0 hb2 (by decide))
  | yes_no =>
    simp only [hqt] at hs
    cases a with
    | num x => cases hs
    | str s2 =>
      obtain rfl := Option.some.inj hs
      exact Q.bounds_val
        (lookupD_bound (fun t => (0 : Q) ≤ t ∧ t ≤ (5 : Q))
          (q.scoring.getD [("yes", 5), ("no", 0)]) (pyLower s2) 0 hb (by decide))
  | text =>
    simp only [hqt] at hs
    obtain rfl := Option.some.inj hs
    apply Q.bounds_val
    split <;> decide

theorem likert_range_spec (answers : AnswerMap) (h : likertAnswersInRange answers = true) :
    ∀ q ∈ question_bank, q.type = .likert →
      ∀ e : AnswerEntry, dictGet answers q.id = some e →
        ∀ x : Q, e.answer = .num x → ((0 : Q) ≤ x ∧ x ≤ (5 : Q)) := by
  intro q hq hlik e he x hx
  unfold likertAnswersInRange at h
  rw [List.all_eq_true] at h
  have hq2 := h q hq
  simp only [hlik] at hq2
  rw [List.all_eq_true] at hq2
  unfold dictGet at he
  cases hf : answers.find? (fun p => p.1 = q.id) with
  | none => rw [hf] at he; cases he
  | some p =>
    rw [hf] at he
    have hpm := List.mem_of_find?_eq_some hf
    have hpk : p.1 = q.id := by simpa using List.find?_some hf
    have hpe : p.2 = e := by simpa using he
    have hres := hq2 p hpm
    rw [if_pos (by simpa using hpk)] at hres
    rw [hpe, hx] at hres
    simpa using hres

theorem addScore_bounds (acc : List (String × DimAcc)) (dim : String) (s : Q)
    (hacc : ∀ p ∈ acc, 0 ≤ p.2.raw_score.val ∧ p.2.raw_score.val ≤ (5 : ℚ) * (p.2.count : ℚ))
    (hs : 0 ≤ s.val ∧ s.val ≤ 5) :
    ∀ p ∈ addScore acc dim s,
      0 ≤ p.2.raw_score.val ∧ p.2.raw_score.val ≤ (5 : ℚ) * (p.2.count : ℚ) := by
  intro p hp
  unfold addScore at hp
  obtain ⟨p0, hp0, hpe⟩ := List.mem_map.1 hp
  rcases hacc p0 hp0 with ⟨h1, h2⟩
  by_cases h : p0.1 = dim
  · rw [if_pos h] at hpe
    rw [← hpe]
    simp only [Q.val_add]
    constructor
    · linarith [hs.1]
    · push_cast
      linarith [hs.2]
  · rw [if_neg h] at hpe
    rw [← hpe]
    exact ⟨h1, h2⟩

theorem initScores_bounds :
    ∀ p ∈ initScores, 0 ≤ p.2.raw_score.val ∧ p.2.raw_score.val ≤ (5 : ℚ) * (p.2.count : ℚ) := by
  have hz : ∀ p ∈ initScores, p.2.raw_score = (0 : Q) ∧ p.2.count = 0 := by decide
  intro p hp
  rcases hz p hp with ⟨h1, h2⟩
  rw [h1, h2, Q.val_zero]
  norm_num

theorem scoreLoop_bounds (answers : AnswerMap)
    (hr : likertAnswersInRange answers = true) :
    ∀ qs : List Question, (∀ q ∈ qs, q ∈ question_bank) →
      ∀ acc, (∀ p ∈ acc, 0 ≤ p.2.raw_score.val ∧ p.2.raw_score.val ≤ (5 : ℚ) * (p.2.count : ℚ)) →
      ∀ ds, scoreLoop answers qs acc = some ds →
        ∀ p ∈ ds, 0 ≤ p.2.raw_score.val ∧ p.2.raw_score.val ≤ (5 : ℚ) * (p.2.count : ℚ) := by
  intro qs
  induction qs with
  | nil =>
    intro _ acc hacc ds h
    simp only [scoreLoop] at h
    rw [← Option.some.inj h]
    exact hacc
  | cons q t ih =>
    intro hqs acc hacc ds h
    have hqb := hqs q (by simp)
    have hts : ∀ q2 ∈ t, q2 ∈ question_bank := fun q2 h2 => hqs q2 (by simp [h2])
    cases hd : dictGet answers q.id with
    | none =>
      rw [scoreLoop_cons_none answers q t acc hd] at h
      exact ih hts acc hacc ds h
    | some e =>
      cases hsc : score_answer q e.answer with
      | none =>
        rw [scoreLoop_cons_err answers q t acc e hd hsc] at h
        cases h
      | some sc =>
        rw [scoreLoop_cons_some answers q t acc e sc hd hsc] at h
        have hscb : 0 ≤ sc.val ∧ sc.val ≤ 5 :=
          score_answer_bound_of q hqb e.answer sc
            (fun hty x hx => likert_range_spec answers hr q hqb hty e hd x hx) hsc
        exact ih hts (addScore acc q.dimension sc)
          (addScore_bounds acc q.dimension sc hacc hscb) ds h

theorem dimAvg_val (acc : DimAcc) (h : 0 < acc.count) :
    (dimAvg acc).val = acc.raw_score.val / (acc.count : ℚ) := by
  unfold dimAvg
  rw [Q.val_div, Q.val_ofInt]
  norm_num

theorem dimAvg_bounds (acc : DimAcc) (hc : 0 < acc.count)
    (hb : 0 ≤ acc.raw_score.val ∧ acc.raw_score.val ≤ (5 : ℚ) * (acc.count : ℚ)) :
    0 ≤ (dimAvg acc).val ∧ (dimAvg acc).val ≤ 5 := by
  have hcq : (0 : ℚ) < (acc.count : ℚ) := by exact_mod_cast hc
  rw [dimAvg_val acc hc]
  constructor
  · exact div_nonneg hb.1 hcq.le
  · rw [div_le_iff₀ hcq]
    linarith [hb.2]

theorem dictGet_normalizeDims_none (ds : List (String × DimAcc)) (k : String)
    (hk : ∀ p ∈ ds, p.1 ≠ k) :
    dictGet (normalizeDims ds) k = none := by
  induction ds with
  | nil => rfl
  | cons p t ih =>
    have hp := hk p (by simp)
    have iht := ih (fun p2 h2 => hk p2 (by simp [h2]))
    unfold normalizeDims
    simp only [List.filter_cons]
    by_cases hc : 0 < p.2.count
    · rw [if_pos (by simpa using hc)]
      simp only [List.map_cons, dictGet_cons, if_neg hp]
      exact iht
    · rw [if_neg (by simpa using hc)]
      exact iht

theorem dictGet_normalizeDims_pos (ds : List (String × DimAcc))
    (hnd : (ds.map (·.1)).Nodup) (k : String) (acc : DimAcc)
    (hmem : (k, acc) ∈ ds) (hc : 0 < acc.count) :
    dictGet (normalizeDims ds) k
      = some ⟨pyRound1 (dimAvg acc * (20 : Q)), _get_level (dimAvg acc),
              _get_interpretation k (dimAvg acc)⟩ := by
  induction ds with
  | nil => cases hmem
  | cons p t ih =>
    rcases List.mem_cons.1 hmem with heq | hmem2
    · unfold normalizeDims
      simp only [List.filter_cons, ← heq]
      rw [if_pos (by simpa using hc)]
      simp [dictGet_cons]
    · have hk : k ∈ t.map (·.1) := by
        have := List.mem_map_of_mem (·.1) hmem2
        simpa using this
      have hpk : p.1 ≠ k := by
        intro he
        apply (List.nodup_cons.1 hnd).1
        simpa [he] using hk
      have iht := ih (List.nodup_cons.1 hnd).2 hmem2
      unfold normalizeDims
      simp only [List.filter_cons]
      by_cases hc2 : 0 < p.2.count
      · rw [if_pos (by simpa using hc2)]
        simp only [List.map_cons, dictGet_cons, if_neg hpk]
        exact iht
      · rw [if_neg (by simpa using hc2)]
        exact iht

theorem dictGet_normalizeDims_zero (ds : List (String × DimAcc))
    (hnd : (ds.map (·.1)).Nodup) (k : String) (acc : DimAcc)
    (hmem : (k, acc) ∈ ds) (hc : acc.count = 0) :
    dictGet (normalizeDims ds) k = none := by
  induction ds with
  | nil => cases hmem
  | cons p t ih =>
    rcases List.mem_cons.1 hmem with heq | hmem2
    · have hk : ∀ p2 ∈ t, p2.1 ≠ k := by
        intro p2 h2 he
        apply (List.nodup_cons.1 hnd).1
        rw [← heq]
        have := List.mem_map_of_mem (·.1) h2
        simpa [he] using this
      unfold normalizeDims
      simp only [List.filter_cons, ← heq]
      rw [if_neg (by simp [hc])]
      exact dictGet_normalizeDims_none t k hk
    · have iht := ih (List.nodup_cons.1 hnd).2 hmem2
      have hk : k ∈ t.map (·.1) := by
        have := List.mem_map_of_mem (·.1) hmem2
        simpa using this
      have hpk : p.1 ≠ k := by
        intro he
        apply (List.nodup_cons.1 hnd).1
        simpa [he] using hk
      unfold normalizeDims
      simp only [List.filter_cons]
      by_cases hc2 : 0 < p.2.count
      · rw [if_pos (by simpa using hc2)]
        simp only [List.map_cons, dictGet_cons, if_neg hpk]
        exact iht
      · rw [if_neg (by simpa using hc2)]
        exact iht

theorem normalizeDims_score_bounds (ds : List (String × DimAcc))
    (hb : ∀ p ∈ ds, 0 ≤ p.2.raw_score.val ∧ p.2.raw_score.val ≤ (5 : ℚ) * (p.2.count : ℚ)) :
    ∀ p ∈ normalizeDims ds, 0 ≤ p.2.score.val ∧ p.2.score.val ≤ 100 := by
  intro p hp
  unfold normalizeDims at hp
  obtain ⟨p0, hp0, hpe⟩ := List.mem_map.1 hp
  rw [← hpe]
  have hcnt : 0 < p0.2.count := by
    have := (List.mem_filter.1 hp0).2
    simpa using this
  have havg := dimAvg_bounds p0.2 hcnt (hb p0 (List.mem_of_mem_filter hp0))
  have hm : (dimAvg p0.2 * (20 : Q)).val = (dimAvg p0.2).val * 20 := by
    rw [Q.val_mul, Q.val_ofNat]
    norm_num
  constructor
  · apply pyRound1_val_nonneg
    rw [hm]
    nlinarith [havg.1]
  · have h100 : (dimAvg p0.2 * (20 : Q)).val ≤ ((100 : ℤ) : ℚ) := by
      rw [hm]
      push_cast
      nlinarith [havg.2]
    have := pyRound1_val_le h100
    simpa using this

theorem wSum_bounds (dims : List (String × DimEntry))
    (hsc : ∀ p ∈ dims, 0 ≤ p.2.score.val ∧ p.2.score.val ≤ 100) :
    0 ≤ wSum dims ∧ wSum dims ≤ 100 * tW dims := by
  induction dims with
  | nil => simp [wSum, tW]
  | cons p t ih =>
    have hp := hsc p (by simp)
    have iht := ih (fun p2 h2 => hsc p2 (by simp [h2]))
    cases hw : dictGet weights p.1 with
    | none =>
      simp only [wSum, tW, List.filterMap_cons, hw] at iht ⊢
      exact iht
    | some w =>
      have hwp := weights_pos p.1 w hw
      simp only [wSum, tW, List.filterMap_cons, hw, Option.map_some', List.sum_cons] at iht ⊢
      constructor
      · have := mul_nonneg hp.1 hwp.1.le
        linarith [iht.1]
      · have hterm : p.2.score.val * w.val ≤ 100 * w.val :=
          mul_le_mul_of_nonneg_right hp.2 hwp.1.le
        have := iht.2
        nlinarith

theorem pyRound1Q_nonneg {v : ℚ} (h : 0 ≤ v) : 0 ≤ pyRound1Q v := by
  unfold pyRound1Q
  have h1 : (0 : ℤ) ≤ rheQ (v * 10) := rheQ_nonneg (by linarith)
  have h2 : ((0 : ℤ) : ℚ) ≤ (rheQ (v * 10) : ℚ) := by exact_mod_cast h1
  positivity

theorem pyRound1Q_le {v : ℚ} {m : ℤ} (h : v ≤ (m : ℚ)) : pyRound1Q v ≤ (m : ℚ) := by
  unfold pyRound1Q
  have h1 : rheQ (v * 10) ≤ 10 * m := by
    apply rheQ_le_of_le
    push_cast
    linarith
  have h2 : (rheQ (v * 10) : ℚ) ≤ ((10 * m : ℤ) : ℚ) := by exact_mod_cast h1
  push_cast at h2
  linarith

theorem overall_bounds (dims : List (String × DimEntry))
    (hk : ∀ p ∈ dims, (dictGet weights p.1).isSome = true)
    (hsc : ∀ p ∈ dims, 0 ≤ p.2.score.val ∧ p.2.score.val ≤ 100) :
    0 ≤ (_calculate_overall_score dims).val ∧ (_calculate_overall_score dims).val ≤ 100 := by
  cases dims with
  | nil =>
    have hov : _calculate_overall_score [] = ⟨0, 10, by norm_num⟩ := by decide
    rw [hov]
    norm_num [Q.val]
  | cons p t =>
    rw [overall_val (p :: t) hk (by simp)]
    have hw := wSum_bounds (p :: t) hsc
    have htw := tW_pos (p :: t) hk (by simp)
    have hdiv : 0 ≤ wSum (p :: t) / tW (p :: t) ∧ wSum (p :: t) / tW (p :: t) ≤ 100 := by
      constructor
      · exact div_nonneg hw.1 htw.le
      · rw [div_le_iff₀ htw]
        linarith [hw.2]
    constructor
    · exact pyRound1Q_nonneg hdiv.1
    · have := pyRound1Q_le (m := 100) (by push_cast; exact hdiv.2)
      simpa using this

theorem calculate_results_destruct (answers : AnswerMap) (r : Results)
    (h : calculate_results answers = some r) :
    ∃ ds, scoreLoop answers question_bank initScores = some ds ∧ buildResults ds = r := by
  unfold calculate_results at h
  cases hsl : scoreLoop answers question_bank initScores with
  | none => rw [hsl] at h; cases h
  | some ds => rw [hsl] at h; exact ⟨ds, rfl, Option.some.inj h⟩

/-! ## Claims -/

theorem dictGet_of_mem_nodup {α : Type} (m : List (String × α))
    (hnd : (m.map (·.1)).Nodup) (k : String) (v : α) (hmem : (k, v) ∈ m) :
    dictGet m k = some v := by
  induction m with
  | nil => cases hmem
  | cons p t ih =>
    rcases List.mem_cons.1 hmem with heq | hmem2
    · rw [← heq, dictGet_cons, if_pos rfl]
    · have hk : k ∈ t.map (·.1) := by
        have := List.mem_map_of_mem (·.1) hmem2
        simpa using this
      have hpk : p.1 ≠ k := by
        intro he
        apply (List.nodup_cons.1 hnd).1
        simpa [he] using hk
      rw [dictGet_cons, if_neg hpk]
      exact ih (List.nodup_cons.1 hnd).2 hmem2

theorem mem_weakDimensions_iff (dims : List (String × DimEntry))
    (hnd : (dims.map (·.1)).Nodup) (k : String) :
    k ∈ weakDimensions dims ↔ isWeak dims k = true := by
  constructor
  · intro hmem
    obtain ⟨p, hp, hpe⟩ := List.mem_map.1 hmem
    have hf := List.mem_filter.1 hp
    have hget : dictGet dims k = some p.2 := by
      apply dictGet_of_mem_nodup dims hnd
      have : p = (k, p.2) := by
        rw [← hpe]
      rw [← this]
      exact hf.1
    unfold isWeak
    rw [hget]
    simpa using hf.2
  · intro hw
    unfold isWeak at hw
    cases hget : dictGet dims k with
    | none => rw [hget] at hw; cases hw
    | some e =>
      rw [hget] at hw
      unfold dictGet at hget
      cases hfind : dims.find? (fun p => p.1 = k) with
      | none => rw [hfind] at hget; cases hget
      | some p =>
        rw [hfind] at hget
        have hpm := List.mem_of_find?_eq_some hfind
        have hpk : p.1 = k := by simpa using List.find?_some hfind
        have hpe : p.2 = e := by simpa using hget
        unfold weakDimensions
        apply List.mem_map.2
        refine ⟨p, List.mem_filter.2 ⟨hpm, ?_⟩, hpk⟩
        rw [hpe]
        simpa using hw

theorem gen_recs_spec (dims : List (String × DimEntry)) (overall : Q)
    (hnd : (dims.map (·.1)).Nodup) :
    _generate_recommendations dims overall =
      (((if (75 : Q) ≤ overall then [recExcellent] else [])
        ++ ((["Finanzplanung", "Marktverständnis", "Fachkompetenz",
              "Umsetzungsreife"].filter (fun dim => isWeak dims dim)).map recFor)
        ++ [recClosing]).take 5) := by
  unfold _generate_recommendations
  have hF := mem_weakDimensions_iff dims hnd "Finanzplanung"
  have hM := mem_weakDimensions_iff dims hnd "Marktverständnis"
  have hFa := mem_weakDimensions_iff dims hnd "Fachkompetenz"
  have hU := mem_weakDimensions_iff dims hnd "Umsetzungsreife"
  have hrF : recFor "Finanzplanung" = recFinanzplanung := by decide
  have hrM : recFor "Marktverständnis" = recMarkt := by decide
  have hrFa : recFor "Fachkompetenz" = recFachkompetenz := by decide
  have hrU : recFor "Umsetzungsreife" = recUmsetzung := by decide
  by_cases wF : isWeak dims "Finanzplanung" = true <;>
    by_cases wM : isWeak dims "Marktverständnis" = true <;>
      by_cases wFa : isWeak dims "Fachkompetenz" = true <;>
        by_cases wU : isWeak dims "Umsetzungsreife" = true <;>
          simp [hF, hM, hFa, hU, wF, wM, wFa, wU, hrF, hrM, hrFa, hrU,
            List.filter_cons, List.filter_nil]

theorem normalizeDims_keys_nodup (ds : List (String × DimAcc))
    (hnd : (ds.map (·.1)).Nodup) :
    ((normalizeDims ds).map (·.1)).Nodup := by
  rw [normalizeDims_keys]
  exact List.Nodup.sublist (List.Sublist.map _ (List.filter_sublist ds)) hnd

/-- C6: the recommendations list is the "excellent" message iff
overall ≥ 75, then the fixed messages of the weak dimensions in the
fixed order Finanzplanung, Marktverständnis, Fachkompetenz,
Umsetzungsreife, then the closing message, truncated to 5 entries —
hence its length is ≤ 5, it starts with the excellent message iff
overall ≥ 75, and omits it otherwise. -/
theorem claim_C6 (answers : AnswerMap) (r : Results)
    (h : calculate_results answers = some r) :
    r.recommendations =
      (((if (75 : Q) ≤ r.overall_score then [recExcellent] else [])
        ++ ((["Finanzplanung", "Marktverständnis", "Fachkompetenz",
              "Umsetzungsreife"].filter (fun dim => isWeak r.dimensions dim)).map recFor)
        ++ [recClosing]).take 5)
    ∧ r.recommendations.length ≤ 5
    ∧ ((75 : Q) ≤ r.overall_score → r.recommendations.head? = some recExcellent)
    ∧ (¬ (75 : Q) ≤ r.overall_score → recExcellent ∉ r.recommendations) := by
  obtain ⟨ds, hds, hbuild⟩ := calculate_results_destruct answers r h
  subst hbuild
  simp only [buildResults]
  have hkeys : ds.map (·.1) = DIMENSIONS := by
    rw [scoreLoop_keys answers question_bank initScores ds hds]
    decide
  have hnd0 : (ds.map (·.1)).Nodup := by
    rw [hkeys]
    decide
  have hnd := normalizeDims_keys_nodup ds hnd0
  have hspec := gen_recs_spec (normalizeDims ds)
    (_calculate_overall_score (normalizeDims ds)) hnd
  refine ⟨hspec, ?_, ?_, ?_⟩
  · unfold _generate_recommendations
    simpa using List.length_take_le 5 _
  · intro h75
    rw [hspec, if_pos h75]
    rfl
  · intro h75
    rw [hspec, if_neg h75]
    intro hmem
    have h2 := (List.take_sublist 5 _).subset hmem
    simp only [List.nil_append, List.mem_append, List.mem_singleton] at h2
    rcases h2 with h2 | h2
    · obtain ⟨d, hd, he⟩ := List.mem_map.1 h2
      have hd4 := List.mem_of_mem_filter hd
      fin_cases hd4 <;> exact absurd he (by decide)
    · exact absurd h2 (by decide)

/-- Witness for C6 at the concrete answer map `amENT`. -/
theorem claim_C6_witness :
    calculate_results amENT = some resultsENT
    ∧ (resultsENT.recommendations =
        (((if (75 : Q) ≤ resultsENT.overall_score then [recExcellent] else [])
          ++ ((["Finanzplanung", "Marktverständnis", "Fachkompetenz",
                "Umsetzungsreife"].filter
                  (fun dim => isWeak resultsENT.dimensions dim)).map recFor)
          ++ [recClosing]).take 5)
      ∧ resultsENT.recommendations.length ≤ 5
      ∧ ((75 : Q) ≤ resultsENT.overall_score →
          resultsENT.recommendations.head? = some recExcellent)
      ∧ (¬ (75 : Q) ≤ resultsENT.overall_score →
          recExcellent ∉ resultsENT.recommendations)) :=
  ⟨by decide, claim_C6 amENT resultsENT (by decide)⟩

/-- C8: for every request carrying a session id not present in the
session store, the answer, results, and session-info operations fail
with the 404 Not Found error, and the session store is left unchanged
by the failing call. -/
theorem claim_C8 (sessions : Sessions) (session_id question_id : String)
    (answer : AnswerValue) (now : ℕ)
    (h : dictGet sessions session_id = none) :
    submit_answer sessions session_id question_id answer now
      = (.error .notFound, sessions)
    ∧ get_results sessions session_id = (.error .notFound, sessions)
    ∧ get_session_info sessions session_id = (.error .notFound, sessions) := by
  refine ⟨?_, ?_, ?_⟩ <;> simp [submit_answer, get_results, get_session_info, h]

/-- Witness for C8 at a concrete store and unknown id. -/
theorem claim_C8_witness :
    dictGet [("known", (⟨0, [], 0⟩ : Session))] "unknown" = none
    ∧ (submit_answer [("known", ⟨0, [], 0⟩)] "unknown" "ENT_001" (.num 3) 7
        = (.error .notFound, [("known", ⟨0, [], 0⟩)])
      ∧ get_results [("known", ⟨0, [], 0⟩)] "unknown"
        = (.error .notFound, [("known", ⟨0, [], 0⟩)])
      ∧ get_session_info [("known", ⟨0, [], 0⟩)] "unknown"
        = (.error .notFound, [("known", ⟨0, [], 0⟩)])) :=
  ⟨by decide, claim_C8 [("known", ⟨0, [], 0⟩)] "unknown" "ENT_001" (.num 3) 7 (by decide)⟩

/-- C9: two answer maps that agree on every question id of the
15-question bank yield identical results: entries under foreign ids
contribute nothing. -/
theorem claim_C9 (am1 am2 : AnswerMap)
    (h : ∀ q ∈ question_bank, dictGet am1 q.id = dictGet am2 q.id) :
    calculate_results am1 = calculate_results am2 := by
  unfold calculate_results
  have key : ∀ qs : List Question, (∀ q ∈ qs, dictGet am1 q.id = dictGet am2 q.id) →
      ∀ acc, scoreLoop am1 qs acc = scoreLoop am2 qs acc := by
    intro qs
    induction qs with
    | nil => intro _ acc; rfl
    | cons q t ih =>
      intro hq acc
      have hqh := hq q (by simp)
      have iht := ih (fun q2 hq2 => hq q2 (by simp [hq2]))
      cases hd : dictGet am2 q.id with
      | none =>
        rw [scoreLoop_cons_none am1 q t acc (hqh.trans hd),
            scoreLoop_cons_none am2 q t acc hd]
        exact iht acc
      | some e =>
        cases hs : score_answer q e.answer with
        | none =>
          rw [scoreLoop_cons_err am1 q t acc e (hqh.trans hd) hs,
              scoreLoop_cons_err am2 q t acc e hd hs]
        | some sc =>
          rw [scoreLoop_cons_some am1 q t acc e sc (hqh.trans hd) hs,
              scoreLoop_cons_some am2 q t acc e sc hd hs]
          exact iht (addScore acc q.dimension sc)
  rw [key question_bank h initScores]

/-- Witness for C9: a map with an extra entry under a foreign id gives
the same results as the map without it. -/
theorem claim_C9_witness :
    (∀ q ∈ question_bank,
      dictGet [("ENT_001", (⟨.num 4, 0⟩ : AnswerEntry)), ("NOT_A_QUESTION", ⟨.num 1, 1⟩)] q.id
        = dictGet [("ENT_001", (⟨.num 4, 0⟩ : AnswerEntry))] q.id)
    ∧ calculate_results [("ENT_001", ⟨.num 4, 0⟩), ("NOT_A_QUESTION", ⟨.num 1, 1⟩)]
        = calculate_results [("ENT_001", ⟨.num 4, 0⟩)] :=
  ⟨by decide,
   claim_C9 [("ENT_001", ⟨.num 4, 0⟩), ("NOT_A_QUESTION", ⟨.num 1, 1⟩)]
     [("ENT_001", ⟨.num 4, 0⟩)] (by decide)⟩

/-- C1 is refuted by the code: `submit_answer` increments the pointer on
every call, resubmission included.  Concretely: a session with pointer 1
whose answer map already holds "ENT_001" is resubmitted "ENT_001"; the
pointer becomes 2 and the reported progress 13, while pointer 1 reports
progress 6 — so pointer and progress do change. -/
theorem claim_C1_counterexample :
    (dictGet ([("ENT_001", (⟨.num 5, 0⟩ : AnswerEntry))] : AnswerMap) "ENT_001").isSome = true
    ∧ (dictGet (submit_answer [("s", ⟨1, [("ENT_001", ⟨.num 5, 0⟩)], 0⟩)] "s" "ENT_001"
          (.num 3) 1).2 "s").map (fun sd => sd.current_question_index) = some 2
    ∧ ((submit_answer [("s", ⟨1, [("ENT_001", ⟨.num 5, 0⟩)], 0⟩)] "s" "ENT_001"
          (.num 3) 1).1.toOption.map (fun resp => resp.progress)) = some 13
    ∧ 1 * 100 / total_questions = 6
    ∧ ¬ (2 = 1 ∧ 13 = 6) := by decide

/-- C1 (amended): resubmitting an already-answered question id
overwrites the stored entry in place — the answer map gains no new key,
its key list is unchanged, and every other entry is untouched — but the
pointer is still incremented by 1 and the reported progress percent is
that of the incremented pointer, exactly as for any other submission. -/
theorem claim_C1 (sessions : Sessions) (session_id question_id : String)
    (answer : AnswerValue) (now : ℕ) (s : Session)
    (hs : dictGet sessions session_id = some s)
    (hq : (dictGet s.answers question_id).isSome = true) :
    ((submit_answer sessions session_id question_id answer now).1.toOption.map
        (fun resp => resp.progress))
      = some ((s.current_question_index + 1) * 100 / total_questions)
    ∧ (dictGet (submit_answer sessions session_id question_id answer now).2 session_id).map
        (fun sd => sd.current_question_index)
      = some (s.current_question_index + 1)
    ∧ (dictGet (submit_answer sessions session_id question_id answer now).2 session_id).map
        (fun sd => sd.answers.map (·.1))
      = some (s.answers.map (·.1))
    ∧ (dictGet (submit_answer sessions session_id question_id answer now).2 session_id).map
        (fun sd => dictGet sd.answers question_id)
      = some (some ⟨answer, now⟩)
    ∧ (∀ k : String, k ≠ question_id →
        (dictGet (submit_answer sessions session_id question_id answer now).2 session_id).map
          (fun sd => dictGet sd.answers k)
        = some (dictGet s.answers k)) := by
  simp only [submit_answer, hs]
  refine ⟨rfl, ?_, ?_, ?_, ?_⟩
  · rw [dictGet_dictInsert_self]
    rfl
  · rw [dictGet_dictInsert_self]
    exact congrArg some (dictInsert_keys_of_mem s.answers question_id ⟨answer, now⟩ hq)
  · rw [dictGet_dictInsert_self]
    exact congrArg some (dictGet_dictInsert_self s.answers question_id ⟨answer, now⟩)
  · intro k hk
    rw [dictGet_dictInsert_self]
    exact congrArg some (dictGet_dictInsert_ne s.answers question_id k ⟨answer, now⟩ hk)

/-- Witness for C1 at a concrete session that already answered
"ENT_001". -/
theorem claim_C1_witness :
    dictGet [("s", (⟨1, [("ENT_001", ⟨.num 5, 0⟩)], 0⟩ : Session))] "s"
        = some ⟨1, [("ENT_001", ⟨.num 5, 0⟩)], 0⟩
    ∧ (dictGet ((⟨1, [("ENT_001", ⟨.num 5, 0⟩)], 0⟩ : Session).answers) "ENT_001").isSome
        = true
    ∧ (((submit_answer [("s", ⟨1, [("ENT_001", ⟨.num 5, 0⟩)], 0⟩)] "s" "ENT_001"
          (.num 4) 3).1.toOption.map (fun resp => resp.progress))
        = some (((⟨1, [("ENT_001", ⟨.num 5, 0⟩)], 0⟩ : Session).current_question_index + 1)
            * 100 / total_questions)
      ∧ (dictGet (submit_answer [("s", ⟨1, [("ENT_001", ⟨.num 5, 0⟩)], 0⟩)] "s" "ENT_001"
            (.num 4) 3).2 "s").map (fun sd => sd.current_question_index)
        = some ((⟨1, [("ENT_001", ⟨.num 5, 0⟩)], 0⟩ : Session).current_question_index + 1)
      ∧ (dictGet (submit_answer [("s", ⟨1, [("ENT_001", ⟨.num 5, 0⟩)], 0⟩)] "s" "ENT_001"
            (.num 4) 3).2 "s").map (fun sd => sd.answers.map (·.1))
        = some ((⟨1, [("ENT_001", ⟨.num 5, 0⟩)], 0⟩ : Session).answers.map (·.1))
      ∧ (dictGet (submit_answer [("s", ⟨1, [("ENT_001", ⟨.num 5, 0⟩)], 0⟩)] "s" "ENT_001"
            (.num 4) 3).2 "s").map (fun sd => dictGet sd.answers "ENT_001")
        = some (some ⟨.num 4, 3⟩)
      ∧ (∀ k : String, k ≠ "ENT_001" →
          (dictGet (submit_answer [("s", ⟨1, [("ENT_001", ⟨.num 5, 0⟩)], 0⟩)] "s" "ENT_001"
              (.num 4) 3).2 "s").map (fun sd => dictGet sd.answers k)
          = some (dictGet ((⟨1, [("ENT_001", ⟨.num 5, 0⟩)], 0⟩ : Session).answers) k))) :=
  ⟨by decide, by decide,
   claim_C1 [("s", ⟨1, [("ENT_001", ⟨.num 5, 0⟩)], 0⟩)] "s" "ENT_001" (.num 4) 3
     ⟨1, [("ENT_001", ⟨.num 5, 0⟩)], 0⟩ (by decide) (by decide)⟩

/-- C2 is refuted as stated: likert answers are scored as-is, so a raw
average can leave [0,5].  With "ENT_001" answered 1000, the dimension
"Unternehmerische Persönlichkeit" has one answered question, raw average
1000 > 5, and normalized score 20000 > 100. -/
theorem claim_C2_counterexample :
    ((scoreLoop [("ENT_001", ⟨.num 1000, 0⟩)] question_bank initScores).map
        (fun ds => ds.any (fun p => decide (0 < p.2.count) && decide ((5 : Q) < dimAvg p.2)))
      = some true)
    ∧ ((calculate_results [("ENT_001", ⟨.num 1000, 0⟩)]).map
        (fun r => r.dimensions.any (fun p => decide ((100 : Q) < p.2.score)))
      = some true) := by decide

/-- C2 (amended): provided every stored likert answer is numeric in
[0,5] — all valid 1–5 ratings qualify — every dimension with at least
one answered question appears in the output with normalized score
round(raw_average × 20, 1), where raw_average = raw_sum / count lies in
[0,5]; dimensions with no answered question produce no entry at all. -/
theorem claim_C2 (answers : AnswerMap) (r : Results)
    (hr : likertAnswersInRange answers = true)
    (h : calculate_results answers = some r) :
    ∃ ds, scoreLoop answers question_bank initScores = some ds
      ∧ (∀ p ∈ ds, 0 < p.2.count →
          (dictGet r.dimensions p.1
              = some ⟨pyRound1 (dimAvg p.2 * (20 : Q)), _get_level (dimAvg p.2),
                      _get_interpretation p.1 (dimAvg p.2)⟩
            ∧ (dimAvg p.2).val = p.2.raw_score.val / (p.2.count : ℚ)
            ∧ 0 ≤ (dimAvg p.2).val ∧ (dimAvg p.2).val ≤ 5))
      ∧ (∀ p ∈ ds, p.2.count = 0 → dictGet r.dimensions p.1 = none) := by
  obtain ⟨ds, hds, hbuild⟩ := calculate_results_destruct answers r h
  subst hbuild
  have hkeys : ds.map (·.1) = DIMENSIONS := by
    rw [scoreLoop_keys answers question_bank initScores ds hds]
    decide
  have hnd : (ds.map (·.1)).Nodup := by
    rw [hkeys]
    decide
  have hbnd := scoreLoop_bounds answers hr question_bank (fun q hq => hq)
    initScores initScores_bounds ds hds
  refine ⟨ds, hds, ?_, ?_⟩
  · intro p hp hc
    have hmem : (p.1, p.2) ∈ ds := by simpa using hp
    exact ⟨dictGet_normalizeDims_pos ds hnd p.1 p.2 hmem hc,
           dimAvg_val p.2 hc, dimAvg_bounds p.2 hc (hbnd p hp)⟩
  · intro p hp hc
    have hmem : (p.1, p.2) ∈ ds := by simpa using hp
    exact dictGet_normalizeDims_zero ds hnd p.1 p.2 hmem hc

/-- Witness for C2 at the concrete answer map `amENT`. -/
theorem claim_C2_witness :
    likertAnswersInRange amENT = true
    ∧ calculate_results amENT = some resultsENT
    ∧ (∃ ds, scoreLoop amENT question_bank initScores = some ds
        ∧ (∀ p ∈ ds, 0 < p.2.count →
            (dictGet resultsENT.dimensions p.1
                = some ⟨pyRound1 (dimAvg p.2 * (20 : Q)), _get_level (dimAvg p.2),
                        _get_interpretation p.1 (dimAvg p.2)⟩
              ∧ (dimAvg p.2).val = p.2.raw_score.val / (p.2.count : ℚ)
              ∧ 0 ≤ (dimAvg p.2).val ∧ (dimAvg p.2).val ≤ 5))
        ∧ (∀ p ∈ ds, p.2.count = 0 → dictGet resultsENT.dimensions p.1 = none)) :=
  ⟨by decide, by decide, claim_C2 amENT resultsENT (by decide) (by decide)⟩

/-- C4 is refuted as stated: with "ENT_001" answered 2000, one dimension
has an answered question and the overall score is 40000 > 100. -/
theorem claim_C4_counterexample :
    ((calculate_results [("ENT_001", ⟨.num 2000, 0⟩)]).map
        (fun r => decide (r.dimensions ≠ []) && decide ((100 : Q) < r.overall_score)))
      = some true := by decide

/-- C4 (amended): provided every stored likert answer is numeric in
[0,5], the overall score always lies in [0,100]; it is exactly 0 when
no bank question is answered. -/
theorem claim_C4 (answers : AnswerMap) (r : Results)
    (hr : likertAnswersInRange answers = true)
    (h : calculate_results answers = some r) :
    (0 ≤ r.overall_score.val ∧ r.overall_score.val ≤ 100)
    ∧ ((∀ q ∈ question_bank, dictGet answers q.id = none) →
        r.overall_score.val = 0) := by
  obtain ⟨ds, hds, hbuild⟩ := calculate_results_destruct answers r h
  subst hbuild
  constructor
  · have hkeys : ds.map (·.1) = DIMENSIONS := by
      rw [scoreLoop_keys answers question_bank initScores ds hds]
      decide
    have hbnd := scoreLoop_bounds answers hr question_bank (fun q hq => hq)
      initScores initScores_bounds ds hds
    have hsc := normalizeDims_score_bounds ds hbnd
    have hk : ∀ p ∈ normalizeDims ds, (dictGet weights p.1).isSome = true :=
      fun p hp => weights_total p.1 (mem_normalizeDims_key ds hkeys p hp)
    exact overall_bounds (normalizeDims ds) hk hsc
  · intro hnone
    rw [scoreLoop_unanswered answers question_bank initScores hnone] at hds
    rw [← Option.some.inj hds]
    have hov : (buildResults initScores).overall_score = ⟨0, 10, by norm_num⟩ := by decide
    rw [hov]
    norm_num [Q.val]

/-- Witness for C4 at the concrete answer map `amENT`. -/
theorem claim_C4_witness :
    likertAnswersInRange amENT = true
    ∧ calculate_results amENT = some resultsENT
    ∧ ((0 ≤ resultsENT.overall_score.val ∧ resultsENT.overall_score.val ≤ 100)
      ∧ ((∀ q ∈ question_bank, dictGet amENT q.id = none) →
          resultsENT.overall_score.val = 0)) :=
  ⟨by decide, by decide, claim_C4 amENT resultsENT (by decide) (by decide)⟩

/-- C3: the overall score is round(Σ w·normalized / Σ w, 1) taken only
over the dimensions present in the per-dimension output, with the fixed
weight table; absent dimensions contribute to neither sum; and with no
answered question the result is overall 0, the lowest tier label, and an
empty dimensions mapping. -/
theorem claim_C3 (answers : AnswerMap) (r : Results)
    (h : calculate_results answers = some r) :
    (r.dimensions ≠ [] →
        r.overall_score.val = pyRound1Q (wSum r.dimensions / tW r.dimensions))
    ∧ ((∀ q ∈ question_bank, dictGet answers q.id = none) →
        (r.overall_score.val = 0
         ∧ r.readiness_level = "Niedrig - Erhebliche Vorbereitung notwendig"
         ∧ r.dimensions = [])) := by
  obtain ⟨ds, hds, hbuild⟩ :
      ∃ ds, scoreLoop answers question_bank initScores = some ds ∧ buildResults ds = r := by
    unfold calculate_results at h
    cases hsl : scoreLoop answers question_bank initScores with
    | none => rw [hsl] at h; cases h
    | some ds => rw [hsl] at h; exact ⟨ds, rfl, Option.some.inj h⟩
  subst hbuild
  constructor
  · intro hne
    have hkeys : ds.map (·.1) = DIMENSIONS := by
      rw [scoreLoop_keys answers question_bank initScores ds hds]
      decide
    have hk : ∀ p ∈ normalizeDims ds, (dictGet weights p.1).isSome = true :=
      fun p hp => weights_total p.1 (mem_normalizeDims_key ds hkeys p hp)
    exact overall_val (normalizeDims ds) hk hne
  · intro hnone
    rw [scoreLoop_unanswered answers question_bank initScores hnone] at hds
    rw [← Option.some.inj hds]
    have hov : (buildResults initScores).overall_score = ⟨0, 10, by norm_num⟩ := by decide
    refine ⟨?_, by decide, by decide⟩
    rw [hov]
    norm_num [Q.val]

/-- Witness for C3 at the concrete answer map `amENT`. -/
theorem claim_C3_witness :
    calculate_results amENT = some resultsENT
    ∧ ((resultsENT.dimensions ≠ [] →
          resultsENT.overall_score.val
            = pyRound1Q (wSum resultsENT.dimensions / tW resultsENT.dimensions))
      ∧ ((∀ q ∈ question_bank, dictGet amENT q.id = none) →
          (resultsENT.overall_score.val = 0
           ∧ resultsENT.readiness_level = "Niedrig - Erhebliche Vorbereitung notwendig"
           ∧ resultsENT.dimensions = []))) :=
  ⟨by decide, claim_C3 amENT resultsENT (by decide)⟩

/-- C5: multiple-choice and yes/no scores come from the explicit table
(stringified key for multiple choice, the canonical lowercase option key
for yes/no), defaulting to 0 when the key is absent; the built-in
{yes:5, no:0} fallback applies only to yes/no questions with no
explicit table — and every yes/no question of the bank has one; in
particular COMP_002 answered "no" scores 1, not 0. -/
theorem claim_C5 :
    (∀ q ∈ question_bank, q.type = .multiple_choice →
      ∀ a : AnswerValue, score_answer q a = some (lookupD (q.scoring.getD []) (pyStr a) 0))
    ∧ (∀ q ∈ question_bank, q.type = .yes_no → q.scoring ≠ none)
    ∧ (∀ q ∈ question_bank, q.type = .yes_no →
        ∀ s : String, pyLower s = s →
          score_answer q (.str s) = some (lookupD (q.scoring.getD []) s 0))
    ∧ (∀ q : Question, q.type = .yes_no → q.scoring = none →
        ∀ s : String, score_answer q (.str s)
          = some (lookupD [("yes", 5), ("no", 0)] (pyLower s) 0))
    ∧ score_answer ⟨"COMP_002", "Fachkompetenz", .yes_no, some [("yes", 5), ("no", 1)]⟩
        (.str "no") = some 1
    ∧ ((1 : Q) ≠ (0 : Q)) := by
  have hyn : ∀ q ∈ question_bank, q.type = .yes_no → q.scoring ≠ none := by decide
  refine ⟨?_, hyn, ?_, ?_, by decide, by decide⟩
  · intro q _ hmc a
    simp [score_answer, hmc]
  · intro q hq hyn2 s hlow
    obtain ⟨tbl, htbl⟩ := Option.ne_none_iff_exists'.1 (hyn q hq hyn2)
    simp [score_answer, hyn2, htbl, hlow]
  · intro q hty hnone s
    simp [score_answer, hty, hnone]

/-- Witness for C5: evaluating the table lookups of the first conjuncts
at concrete bank questions and answers. -/
theorem claim_C5_witness :
    score_answer ⟨"COMP_001", "Fachkompetenz", .multiple_choice,
        some [("no_experience", 1), ("less_1_year", 2), ("1_3_years", 3),
              ("3_5_years", 4), ("more_5_years", 5)]⟩ (.str "3_5_years") = some 4
    ∧ score_answer ⟨"MARKET_001", "Marktverständnis", .yes_no,
        some [("yes", 5), ("partial", 3), ("no", 1)]⟩ (.str "partial") = some 3 :=
  ⟨(claim_C5.1 _ (by decide) rfl (.str "3_5_years")).trans (by decide),
   (claim_C5.2.2.1 _ (by decide) rfl "partial" (by decide)).trans (by decide)⟩

/-- C7: readiness tiers are exactly the intervals [75,∞), [55,75),
[35,55) and (-∞,35) with their fixed labels, and next steps are the
fixed 5-element tier lists, selected by the substring matched in the
label, identical for every value of the `dimensions` argument. -/
theorem claim_C7 :
    (∀ x : Q,
      (_get_readiness_level x = "Hoch - Sehr gute Bewilligungschancen" ↔ (75 : Q) ≤ x)
      ∧ (_get_readiness_level x = "Mittel - Gute Chancen mit Optimierungen"
          ↔ ((55 : Q) ≤ x ∧ x < (75 : Q)))
      ∧ (_get_readiness_level x = "Ausbaufähig - Verbesserungen erforderlich"
          ↔ ((35 : Q) ≤ x ∧ x < (55 : Q)))
      ∧ (_get_readiness_level x = "Niedrig - Erhebliche Vorbereitung notwendig"
          ↔ x < (35 : Q)))
    ∧ (∀ x : Q, ∀ dims : List (String × DimEntry),
        _generate_next_steps (_get_readiness_level x) dims
          = if (75 : Q) ≤ x then stepsHoch
            else if (55 : Q) ≤ x then stepsMittel
            else stepsFallback)
    ∧ (∀ lvl : String, ∀ d1 d2 : List (String × DimEntry),
        _generate_next_steps lvl d1 = _generate_next_steps lvl d2)
    ∧ (∀ lvl : String, ∀ dims : List (String × DimEntry),
        (_generate_next_steps lvl dims).length = 5) := by
  have hHH : pyIn "Hoch" "Hoch - Sehr gute Bewilligungschancen" = true := by decide
  have hMH : pyIn "Hoch" "Mittel - Gute Chancen mit Optimierungen" = false := by decide
  have hMM : pyIn "Mittel" "Mittel - Gute Chancen mit Optimierungen" = true := by decide
  have hAH : pyIn "Hoch" "Ausbaufähig - Verbesserungen erforderlich" = false := by decide
  have hAM : pyIn "Mittel" "Ausbaufähig - Verbesserungen erforderlich" = false := by decide
  have hNH : pyIn "Hoch" "Niedrig - Erhebliche Vorbereitung notwendig" = false := by decide
  have hNM : pyIn "Mittel" "Niedrig - Erhebliche Vorbereitung notwendig" = false := by decide
  refine ⟨fun x => ?_, fun x dims => ?_, fun lvl d1 d2 => rfl, fun lvl dims => ?_⟩
  · simp only [_get_readiness_level, Q.le_iff_val, Q.lt_iff_val, Q.val_ofNat]
    push_cast
    by_cases h75 : (75 : ℚ) ≤ x.val
    · rw [if_pos h75]
      refine ⟨iff_of_true rfl h75, iff_of_false (by decide) ?_,
        iff_of_false (by decide) ?_, iff_of_false (by decide) ?_⟩
      · rintro ⟨-, hlt⟩; linarith
      · rintro ⟨-, hlt⟩; linarith
      · intro hlt; linarith
    · rw [if_neg h75]
      by_cases h55 : (55 : ℚ) ≤ x.val
      · rw [if_pos h55]
        refine ⟨iff_of_false (by decide) h75,
          iff_of_true rfl ⟨h55, not_le.1 h75⟩,
          iff_of_false (by decide) ?_, iff_of_false (by decide) ?_⟩
        · rintro ⟨-, hlt⟩; linarith
        · intro hlt; linarith
      · rw [if_neg h55]
        by_cases h35 : (35 : ℚ) ≤ x.val
        · rw [if_pos h35]
          refine ⟨iff_of_false (by decide) h75, iff_of_false (by decide) ?_,
            iff_of_true rfl ⟨h35, not_le.1 h55⟩, iff_of_false (by decide) ?_⟩
          · rintro ⟨hge, -⟩; exact h55 hge
          · intro hlt; linarith
        · rw [if_neg h35]
          refine ⟨iff_of_false (by decide) h75, iff_of_false (by decide) ?_,
            iff_of_false (by decide) ?_, iff_of_true rfl (not_le.1 h35)⟩
          · rintro ⟨hge, -⟩; exact h55 hge
          · rintro ⟨hge, -⟩; exact h35 hge
  · by_cases h75 : (75 : Q) ≤ x
    · simp [_get_readiness_level, h75, _generate_next_steps, hHH]
    · by_cases h55 : (55 : Q) ≤ x
      · simp [_get_readiness_level, h75, h55, _generate_next_steps, hMH, hMM]
      · by_cases h35 : (35 : Q) ≤ x
        · simp [_get_readiness_level, h75, h55, h35, _generate_next_steps, hAH, hAM]
        · simp [_get_readiness_level, h75, h55, h35, _generate_next_steps, hNH, hNM]
  · unfold _generate_next_steps
    split_ifs <;> rfl

/-- C10: yes/no scoring lowercases string answers before the table
lookup (so "Yes" and "YES" score like "yes"), and raises — modelled as
`none` — on any non-string answer. -/
theorem claim_C10 (q : Question) (hq : q.type = .yes_no) :
    (∀ s : String, score_answer q (.str s)
        = some (lookupD (q.scoring.getD [("yes", 5), ("no", 0)]) (pyLower s) 0))
    ∧ score_answer q (.str "Yes") = score_answer q (.str "yes")
    ∧ score_answer q (.str "YES") = score_answer q (.str "yes")
    ∧ (∀ x : Q, score_answer q (.num x) = none) := by
  have hY : pyLower "Yes" = "yes" := by decide
  have hY2 : pyLower "YES" = "yes" := by decide
  have hy : pyLower "yes" = "yes" := by decide
  refine ⟨fun s => ?_, ?_, ?_, fun x => ?_⟩ <;>
    simp [score_answer, hq, hY, hY2, hy]

/-- Witness for C10 at the concrete COMP_002 question. -/
theorem claim_C10_witness :
    (⟨"COMP_002", "Fachkompetenz", .yes_no, some [("yes", 5), ("no", 1)]⟩ : Question).type
        = .yes_no
    ∧ ((∀ s : String,
        score_answer ⟨"COMP_002", "Fachkompetenz", .yes_no, some [("yes", 5), ("no", 1)]⟩ (.str s)
          = some (lookupD ((⟨"COMP_002", "Fachkompetenz", .yes_no,
              some [("yes", 5), ("no", 1)]⟩ : Question).scoring.getD [("yes", 5), ("no", 0)])
              (pyLower s) 0))
      ∧ score_answer ⟨"COMP_002", "Fachkompetenz", .yes_no, some [("yes", 5), ("no", 1)]⟩ (.str "Yes")
          = score_answer ⟨"COMP_002", "Fachkompetenz", .yes_no, some [("yes", 5), ("no", 1)]⟩ (.str "yes")
      ∧ score_answer ⟨"COMP_002", "Fachkompetenz", .yes_no, some [("yes", 5), ("no", 1)]⟩ (.str "YES")
          = score_answer ⟨"COMP_002", "Fachkompetenz", .yes_no, some [("yes", 5), ("no", 1)]⟩ (.str "yes")
      ∧ (∀ x : Q,
          score_answer ⟨"COMP_002", "Fachkompetenz", .yes_no, some [("yes", 5), ("no", 1)]⟩ (.num x)
            = none)) :=
  ⟨by decide,
   claim_C10 ⟨"COMP_002", "Fachkompetenz", .yes_no, some [("yes", 5), ("no", 1)]⟩ (by decide)⟩

end GruenderAI
